import Mathlib

/-!
Verification development for the `deal` solver subsystem.

Shallow embedding of:
 - `deal/_solver/_annotations.py` (sort mapping for parameter annotations)
 - `deal/_solver/_theorem.py` (the `Theorem` orchestrator: lazily memoized
   chain arguments → context → contracts → constraint → solver, and `prove`)

External collaborators (`_context.py`, `_sorts.py`, `_eval_stmt.py`,
`_eval_contracts.py`, the linter's symbol resolution helpers, and the z3
library) are modelled from the spec at their interfaces.
-/

namespace DealSolver

/-- A z3 sort, as used by the sort mapper: the primitive sorts produced by
`z3.BoolSort`, `z3.IntSort`, `z3.RealSort`, `z3.StringSort`, and the
one-parameter sorts `z3.SeqSort` and `z3.SetSort`. -/
inductive Z3Sort where
  | bool
  | int
  | real
  | str
  | seq (elem : Z3Sort)
  | set (elem : Z3Sort)
  deriving DecidableEq, Repr

namespace FloatSort

/-- Modelled from the spec: `FloatSort.sort` lives in `deal/_solver/_sorts.py`,
which is not available; the spec fixes the mapping of `float` to the real
sort ("Primitive names `bool`, `int`, `float`, `str` map to
boolean/integer/real/string sorts respectively"). -/
def sort : Z3Sort := Z3Sort.real

end FloatSort

/-- `SIMPLE_SORTS` from `_annotations.py`: dict from primitive type name to
sort constructor (the constructors take no argument, so we store the sort). -/
def SIMPLE_SORTS : List (String × Z3Sort) :=
  [("bool", Z3Sort.bool),
   ("int", Z3Sort.int),
   ("float", FloatSort.sort),
   ("str", Z3Sort.str)]

/-- `GENERIC_SORTS` from `_annotations.py`: dict from container type name to
one-argument sort constructor (`list ↦ z3.SeqSort`, `set ↦ z3.SetSort`). -/
def GENERIC_SORTS : List (String × (Z3Sort → Z3Sort)) :=
  [("list", Z3Sort.seq),
   ("set", Z3Sort.set)]

/-- Modelled from the spec: one entry of the list returned by `infer` (the
linter's static symbol resolution helper, not available under `src/`); the
spec says resolution is "supplied by the front-end". `get_full_name` on a
definition returns the pair (module name, local name). -/
structure Definition where
  moduleName : String
  localName : String
  deriving DecidableEq, Repr

/-- An astroid annotation node, restricted to the node kinds `ann2sort`
dispatches on: `astroid.Index` (transparent slice wrapper), `astroid.Name`,
`astroid.Const` (a string literal or any other constant), and
`astroid.Subscript`.  For a Subscript node the results of the front-end's
static symbol resolution on `node.value` are carried on the node itself
(`inferred` is what `infer(node.value)` returns, `valueName` is what
`get_name(node.value)` returns), since those helpers are external to the
solver subsystem.  Every other node kind is collapsed into `other`. -/
inductive AnnNode where
  | index (value : AnnNode)
  | name (id : String)
  | constStr (value : String)
  | constOther
  | subscript (inferred : List Definition) (valueName : String) (slice : AnnNode)
  | other
  deriving DecidableEq, Repr

/-- Python's `str.lower()` as used on the subscript's outer name, modelled
character-wise over the string's character list. -/
def strLower (s : String) : String := ⟨s.data.map Char.toLower⟩

/-- `_sort_from_name` from `_annotations.py`. -/
def _sort_from_name (id : String) : Option Z3Sort :=
  SIMPLE_SORTS.lookup id

/-- `_sort_from_str` from `_annotations.py`. -/
def _sort_from_str (value : String) : Option Z3Sort :=
  SIMPLE_SORTS.lookup value

/-- The body of `_sort_from_getattr` from `_annotations.py`, with the
recursive call `ann2sort(node.slice)` passed in as the already-computed
`subsort` argument (the guards before it have no side effects, so evaluating
the recursive call eagerly is semantics-preserving). -/
def _sort_from_getattr_core (definitions : List Definition) (valueName : String)
    (subsort : Option Z3Sort) : Option Z3Sort :=
  match definitions with
  | [d] =>
    if d.moduleName ≠ "typing" ∧ d.moduleName ≠ "builtins" then none
    else
      match GENERIC_SORTS.lookup (strLower valueName) with
      | none => none
      | some sort =>
        match subsort with
        | none => none
        | some sub => some (sort sub)
  | _ => none

/-- `ann2sort` from `_annotations.py`: total mapper from an annotation node
to an optional sort. -/
def ann2sort : AnnNode → Option Z3Sort
  | .index value => ann2sort value
  | .name id => _sort_from_name id
  | .constStr value => _sort_from_str value
  | .subscript inferred valueName slice =>
      _sort_from_getattr_core inferred valueName (ann2sort slice)
  | .constOther => none
  | .other => none

/-- The spec's enumeration of the annotation shapes that map to a sort:
a recognized primitive name, a string literal of a primitive name, or a
one-argument parametrization whose outer name resolves to exactly one
definition in `typing` or `builtins` naming a known sequence/set type and
whose type argument itself maps to a sort.  The transparent `Index` slice
wrapper is looked through, exactly as the parametrization syntax implies. -/
def recognizedShape : AnnNode → Bool
  | .index value => recognizedShape value
  | .name id => (SIMPLE_SORTS.lookup id).isSome
  | .constStr value => (SIMPLE_SORTS.lookup value).isSome
  | .constOther => false
  | .subscript inferred valueName slice =>
      match inferred with
      | [d] =>
        ((d.moduleName = "typing" || d.moduleName = "builtins") &&
          (GENERIC_SORTS.lookup (strLower valueName)).isSome &&
          recognizedShape slice)
      | _ => false
  | .other => false

theorem ann2sort_isSome_eq_recognizedShape (n : AnnNode) :
    (ann2sort n).isSome = recognizedShape n := by
  induction n with
  | index value ih => simpa [ann2sort, recognizedShape] using ih
  | name id => simp [ann2sort, recognizedShape, _sort_from_name]
  | constStr value => simp [ann2sort, recognizedShape, _sort_from_str]
  | constOther => simp [ann2sort, recognizedShape]
  | subscript inferred valueName slice ih =>
      simp only [ann2sort, recognizedShape, _sort_from_getattr_core]
      match inferred with
      | [] => rfl
      | d :: d2 :: rest => rfl
      | [d] =>
        dsimp only
        by_cases hm : d.moduleName ≠ "typing" ∧ d.moduleName ≠ "builtins"
        · rw [if_pos hm]
          simp [hm.1, hm.2]
        · rw [if_neg hm]
          rw [not_and_or, not_ne_iff, not_ne_iff] at hm
          cases hgen : GENERIC_SORTS.lookup (strLower valueName) with
          | none => simp [hgen]
          | some sort =>
            cases hsub : ann2sort slice with
            | none =>
              rw [hsub] at ih
              simp [hgen, ← ih]
            | some sub =>
              rw [hsub] at ih
              simp [hgen, ← ih]
              rcases hm with h | h <;> simp [h]
  | other => simp [ann2sort, recognizedShape]

/-- C4: the sort mapper `ann2sort` is total (it is a Lean function, so it
can signal no error) and returns absence — `none` — on every annotation node
outside the recognized shapes: not a recognized primitive name, not a
string literal of a primitive name, and not a one-argument parametrization
satisfying all the mapping conditions (single resolved definition in
`typing`/`builtins`, known sequence/set outer type, type argument that
itself maps to a sort). -/
theorem ann2sort_total_unrecognized_absent (n : AnnNode)
    (h : recognizedShape n = false) : ann2sort n = none := by
  have hs := ann2sort_isSome_eq_recognizedShape n
  rw [h] at hs
  cases ho : ann2sort n with
  | none => rfl
  | some s => rw [ho] at hs; exact absurd hs (by simp)

/-- Witness for C4: a parametrized annotation whose outer name resolves to
no definition is not a recognized shape, and `ann2sort` maps it to `none`. -/
theorem ann2sort_total_unrecognized_absent_witness :
    recognizedShape (.subscript [] "List" (.name "int")) = false ∧
      ann2sort (.subscript [] "List" (.name "int")) = none :=
  ⟨rfl, ann2sort_total_unrecognized_absent (.subscript [] "List" (.name "int")) rfl⟩

/-- C5: a subscript annotation maps to a sort exactly when its outer name
resolves to exactly one definition, that definition lives in the `typing` or
`builtins` module, the outer name (lowercased) is a known sequence/set type
(`list` or `set`), and the single type argument itself maps to a sort; the
result is then sequence-of-X for `list` and set-of-X for `set`.  If any of
these conditions fails the result is absence (`none`, since no `s`
satisfies the right-hand side). -/
theorem ann2sort_subscript_spec (inferred : List Definition) (valueName : String)
    (slice : AnnNode) (s : Z3Sort) :
    ann2sort (.subscript inferred valueName slice) = some s ↔
      ∃ d sub, inferred = [d] ∧
        (d.moduleName = "typing" ∨ d.moduleName = "builtins") ∧
        ann2sort slice = some sub ∧
        ((strLower valueName = "list" ∧ s = Z3Sort.seq sub) ∨
         (strLower valueName = "set" ∧ s = Z3Sort.set sub)) := by
  constructor
  · intro h
    simp only [ann2sort, _sort_from_getattr_core] at h
    rcases inferred with _ | ⟨d, _ | ⟨d2, rest⟩⟩
    · exact absurd h (by simp)
    · dsimp only at h
      by_cases hm : d.moduleName ≠ "typing" ∧ d.moduleName ≠ "builtins"
      · rw [if_pos hm] at h
        exact absurd h (by simp)
      · rw [if_neg hm] at h
        rw [not_and_or, not_ne_iff, not_ne_iff] at hm
        cases hgen : GENERIC_SORTS.lookup (strLower valueName) with
        | none => rw [hgen] at h; exact absurd h (by simp)
        | some sort =>
          rw [hgen] at h
          cases hsub : ann2sort slice with
          | none => rw [hsub] at h; exact absurd h (by simp)
          | some sub =>
            rw [hsub] at h
            injection h with h
            refine ⟨d, sub, rfl, hm, rfl, ?_⟩
            by_cases hl : strLower valueName = "list"
            · rw [hl] at hgen
              simp [GENERIC_SORTS, List.lookup] at hgen
              left
              exact ⟨hl, by rw [← h, ← hgen]⟩
            · by_cases hset : strLower valueName = "set"
              · rw [hset] at hgen
                simp [GENERIC_SORTS, List.lookup] at hgen
                right
                exact ⟨hset, by rw [← h, ← hgen]⟩
              · have hb1 : (strLower valueName == "list") = false :=
                  beq_eq_false_iff_ne.mpr hl
                have hb2 : (strLower valueName == "set") = false :=
                  beq_eq_false_iff_ne.mpr hset
                simp [GENERIC_SORTS, List.lookup, hb1, hb2] at hgen
    · exact absurd h (by simp)
  · rintro ⟨d, sub, rfl, hm, hsub, hcase⟩
    simp only [ann2sort, _sort_from_getattr_core]
    rw [if_neg (by rw [not_and_or, not_ne_iff, not_ne_iff]; exact hm)]
    rcases hcase with ⟨hl, rfl⟩ | ⟨hl, rfl⟩ <;>
      rw [hl] <;> simp [GENERIC_SORTS, List.lookup, hsub]

/-- Witness for C5 (no hypothesis in the statement; this instantiates it):
`list[int]` resolved to the single builtin `list` maps to sequence-of-int. -/
theorem ann2sort_subscript_spec_witness :
    ann2sort (.subscript [⟨"builtins", "list"⟩] "list" (.name "int"))
        = some (Z3Sort.seq Z3Sort.int) :=
  (ann2sort_subscript_spec [⟨"builtins", "list"⟩] "list" (.name "int")
      (Z3Sort.seq Z3Sort.int)).mpr
    ⟨⟨"builtins", "list"⟩, Z3Sort.int, rfl, Or.inr rfl, rfl, Or.inl ⟨by decide, rfl⟩⟩

/-- C6: the bare primitive names `bool`, `int`, `float`, `str` map to the
boolean, integer, real and string sorts respectively (the `float ↦ real`
entry goes through `FloatSort.sort`, modelled from the spec). -/
theorem ann2sort_primitive_names :
    ann2sort (.name "bool") = some Z3Sort.bool ∧
    ann2sort (.name "int") = some Z3Sort.int ∧
    ann2sort (.name "float") = some Z3Sort.real ∧
    ann2sort (.name "str") = some Z3Sort.str :=
  ⟨rfl, rfl, rfl, rfl⟩

/-- C7: a string-literal annotation node is mapped exactly like a bare name
annotation node carrying the same string — both go through the single
`SIMPLE_SORTS` table. -/
theorem ann2sort_str_eq_name (s : String) :
    ann2sort (.constStr s) = ann2sort (.name s) := rfl

/-- Witness for C7 (no hypothesis in the statement; this instantiates it):
the string literal annotation value and the bare name agree on "float". -/
theorem ann2sort_str_eq_name_witness :
    ann2sort (.constStr "float") = ann2sort (.name "float") :=
  ann2sort_str_eq_name "float"

/-!
The `Theorem` orchestrator of `deal/_solver/_theorem.py`.

z3 boolean expressions are embedded as a free term algebra: formulas
produced by the (external) contract and statement evaluators are opaque
variables, and the orchestrator combines them with the n-ary `z3.And` and
`z3.Not`.  A boolean valuation of the variables gives each term a truth
value, which models z3's semantics of the connectives.
-/

/-- A z3 boolean expression (`z3.BoolRef`), as far as the orchestrator
manipulates it: opaque formulas (numbered variables), `z3.BoolVal`,
the n-ary `z3.And`, and `z3.Not`. -/
inductive Expr where
  | boolVal (b : Bool)
  | var (n : Nat)
  | and (args : List Expr)
  | not (e : Expr)

mutual

/-- Truth value of an expression under a valuation of the opaque formulas;
`z3.And` is the conjunction of its arguments. -/
def Expr.eval (v : Nat → Bool) : Expr → Bool
  | .boolVal b => b
  | .var n => v n
  | .and args => Expr.evalConj v args
  | .not e => !(Expr.eval v e)

/-- Conjunction of the truth values of a list of expressions. -/
def Expr.evalConj (v : Nat → Bool) : List Expr → Bool
  | [] => true
  | e :: es => Expr.eval v e && Expr.evalConj v es

end

/-- A `z3.Goal`: an ordered collection of boolean assertions. -/
structure Goal where
  exprs : List Expr

/-- `z3.Goal.as_expr`, modelled from the z3 library: the trivially true
formula for an empty goal, the single assertion for a one-element goal,
and the n-ary conjunction otherwise. -/
def Goal.as_expr (g : Goal) : Expr :=
  match g.exprs with
  | [] => .boolVal true
  | [e] => e
  | es => .and es

/-- `z3.Goal.add`: append assertions in order. -/
def Goal.add (g : Goal) (es : List Expr) : Goal :=
  ⟨g.exprs ++ es⟩

/-- The meaning of a goal: the conjunction of all its formulas (spec:
"Goal: a conjunction of contract predicates for one category"). -/
def Goal.evalAll (v : Nat → Bool) (g : Goal) : Bool :=
  g.exprs.all (Expr.eval v)

/-- A symbolic value: a solver constant tagged with its name and sort
(`wrap(z3.Const(name, sort))` in `Theorem.arguments`; the `wrap` pattern
classes of the unavailable `_sorts.py` only tag the term, modelled here by
the record itself). -/
structure SymValue where
  name : String
  sort : Z3Sort
  deriving DecidableEq, Repr

/-- Modelled from the spec (§4.2, `_context.py` is not available): a
symbolic context owns a scope (name → current symbolic value), the `given`
assumption set and the `expected` obligation set; `make_empty` starts with
all of them empty.  The z3 context handle carries no logical content and is
omitted. -/
structure Context where
  scope : List (String × SymValue) := []
  given : List Expr := []
  expected : List Expr := []

/-- `Context.make_empty`, modelled from the spec: empty scope, given and
expected sets. -/
def Context.make_empty : Context := {}

/-- `scope.set(name, value)`, modelled from the spec: binds or overwrites
the name. -/
def Context.scopeSet (ctx : Context) (name : String) (value : SymValue) : Context :=
  { ctx with scope := (ctx.scope.filter (fun p => p.1 ≠ name)) ++ [(name, value)] }

/-- The exceptions visible to `Theorem.prove`: `UnsupportedError` and
`ProveError` from `_exceptions.py`, Python's `RuntimeError`, and any other
exception an external collaborator may raise. -/
inductive Err where
  | unsupported (msg : String)
  | proveErr (msg : String)
  | runtime (msg : String)
  | other (msg : String)
  deriving DecidableEq, Repr

/-- Is this the `UnsupportedError` condition (the only one `prove` catches)? -/
def Err.isUnsupported : Err → Bool
  | .unsupported _ => true
  | _ => false

/-- The three-valued `Conclusion` enum of `_theorem.py`
(`OK = proved, SKIP = skipped, FAIL = disproved`). -/
inductive Conclusion where
  | OK
  | SKIP
  | FAIL
  deriving DecidableEq, Repr

/-- The answer of `z3.Solver.check`: `z3.unsat`, `z3.unknown`, `z3.sat`,
or anything else (the orchestrator treats that case as unreachable). -/
inductive CheckResult where
  | unsat
  | unknown
  | sat
  | other
  deriving DecidableEq, Repr

/-- A concrete literal value in a solver model. -/
inductive Lit where
  | b (value : Bool)
  | i (value : Int)
  | s (value : String)
  deriving DecidableEq, Repr

/-- A `z3.ModelRef` as consumed here: a concrete assignment of literal
values to the named constants of the formula. -/
def Model := List (String × Lit)
deriving instance DecidableEq for Model

/-- The contracts mapping returned by `eval_contracts`: per the spec it has
exactly the two entries `pre` and `post`, each one goal. -/
structure Contracts where
  pre : Goal
  post : Goal

/-- A function description, as consumed by the orchestrator: the parameter
list zipped with the annotations (`zip(args.args, args.annotations)`, with
`None` for a missing annotation).  The body statements and the decorator
metadata are consulted only by the external evaluators, which receive the
whole description (see `Env`). -/
structure FuncDef where
  name : String
  args : List (String × Option AnnNode)
  deriving DecidableEq, Repr

/-- The external collaborators of the orchestrator, modelled from the spec
at their interfaces: `eval_contracts` (contract evaluator), `eval_stmt`
(symbolic statement evaluator, returning the mutated context), and the z3
solver's `check` and `model` on the asserted constraint.  Each evaluator may
raise (`Except.error`); `check` is a function of the constraint, modelling
the spec's determinism guarantee (§5). -/
structure Env where
  evalContracts : FuncDef → Context → Except Err Contracts
  evalStmt : FuncDef → Context → Except Err Context
  check : Expr → Except Err CheckResult
  model : Expr → Model

/-- A `z3.Solver` as consumed here: it holds the single added constraint. -/
structure Solver where
  constraint : Expr

/-- The `Theorem` object: the bound function description (`_func`), the
verdict attributes (`conclusion`, `error`, and the model `example`, here
`counterex` since `example` is reserved in Lean), and one slot per
`cached_property` of the derived chain (the attribute dictionary entries
written on first access). -/
structure Theorem where
  func : FuncDef
  conclusion : Option Conclusion := none
  error : Option Err := none
  counterex : Option Model := none
  cached_arguments : Option (List (String × SymValue)) := none
  cached_context : Option Context := none
  cached_contracts : Option Contracts := none
  cached_constraint : Option Expr := none
  cached_solver : Option Solver := none

/-- `Theorem.__init__`: a freshly constructed Theorem bound to a function
description, with no verdict and nothing memoized. -/
def Theorem.fresh (func : FuncDef) : Theorem := { func := func }

/-- `Theorem.reset`: clear the attribute dictionary (all memoized derived
values and the verdict attributes) and restore the bound function. -/
def Theorem.reset (t : Theorem) : Theorem := { func := t.func }

/-- `z3.Const(name, sort)`: a fresh named constant of the given sort. -/
def z3Const (name : String) (sort : Z3Sort) : SymValue := ⟨name, sort⟩

/-- Modelled from the spec: `wrap` of the unavailable `_sorts.py` only puts
the z3 term into a sort-tagged pattern class; the symbolic value already
carries its sort here, so `wrap` is the identity on it. -/
def wrap (value : SymValue) : SymValue := value

/-- The loop of the `arguments` cached property: walk
`zip(args.args, args.annotations)` in order, raising `UnsupportedError` on
a missing annotation or an annotation without a sort, and otherwise binding
`result[arg.name] = wrap(z3.Const(arg.name, sort))`. -/
def computeArgumentsGo :
    List (String × Option AnnNode) → List (String × SymValue) →
      Except Err (List (String × SymValue))
  | [], result => .ok result
  | (name, none) :: _, _ =>
      .error (.unsupported ("missed annotation for " ++ name))
  | (name, some ann) :: rest, result =>
      match ann2sort ann with
      | none => .error (.unsupported "unsupported annotation type")
      | some sort => computeArgumentsGo rest (result ++ [(name, wrap (z3Const name sort))])

/-- The `arguments` cached property's computation, on the bound function. -/
def computeArguments (func : FuncDef) : Except Err (List (String × SymValue)) :=
  computeArgumentsGo func.args []

/-- Access `Theorem.arguments`: return the memoized value, or compute and
memoize it; an exception leaves the slot unset and propagates. -/
def Theorem.getArguments (t : Theorem) :
    Except Err (List (String × SymValue)) × Theorem :=
  match t.cached_arguments with
  | some args => (.ok args, t)
  | none =>
    match computeArguments t.func with
    | .error e => (.error e, t)
    | .ok args => (.ok args, { t with cached_arguments := some args })

/-- Access `Theorem.context`: `Context.make_empty()` seeded with one scope
binding per argument, memoized. -/
def Theorem.getContext (t : Theorem) : Except Err Context × Theorem :=
  match t.cached_context with
  | some ctx => (.ok ctx, t)
  | none =>
    match t.getArguments with
    | (.error e, t) => (.error e, t)
    | (.ok args, t) =>
      let ctx := args.foldl (fun c p => c.scopeSet p.1 p.2) Context.make_empty
      (.ok ctx, { t with cached_context := some ctx })

/-- Access `Theorem.contracts`: `eval_contracts(decorators, ctx=context)`,
memoized.  The context read here is the current memoized one (in the source
the very object mutated in place by `eval_stmt`). -/
def Theorem.getContracts (env : Env) (t : Theorem) :
    Except Err Contracts × Theorem :=
  match t.cached_contracts with
  | some con => (.ok con, t)
  | none =>
    match t.getContext with
    | (.error e, t) => (.error e, t)
    | (.ok ctx, t) =>
      match env.evalContracts t.func ctx with
      | .error e => (.error e, t)
      | .ok con => (.ok con, { t with cached_contracts := some con })

/-- The formula assembled by the `constraint` property from the evaluated
contracts and the post-body context:
`z3.And(pre.as_expr(), *given, z3.Not(asserts.as_expr()))` where the
`asserts` goal holds `*expected` and then `post.as_expr()`. -/
def assembleConstraint (contracts : Contracts) (ctx : Context) : Expr :=
  let asserts := (Goal.mk []).add ctx.expected |>.add [contracts.post.as_expr]
  .and ([contracts.pre.as_expr] ++ ctx.given ++ [.not asserts.as_expr])

/-- Access `Theorem.constraint`: touch the context (the `z3.Goal(ctx=...)`
line), run `eval_stmt` over the body — which mutates the memoized context
in place — then read `contracts` and assemble the formula, memoized. -/
def Theorem.getConstraint (env : Env) (t : Theorem) : Except Err Expr × Theorem :=
  match t.cached_constraint with
  | some c => (.ok c, t)
  | none =>
    match t.getContext with
    | (.error e, t) => (.error e, t)
    | (.ok ctx, t) =>
      match env.evalStmt t.func ctx with
      | .error e => (.error e, t)
      | .ok ctx2 =>
        let t := { t with cached_context := some ctx2 }
        match t.getContracts env with
        | (.error e, t) => (.error e, t)
        | (.ok con, t) =>
          let c := assembleConstraint con ctx2
          (.ok c, { t with cached_constraint := some c })

/-- Access `Theorem.solver`: a `z3.Solver` with the constraint added,
memoized. -/
def Theorem.getSolver (env : Env) (t : Theorem) : Except Err Solver × Theorem :=
  match t.cached_solver with
  | some s => (.ok s, t)
  | none =>
    match t.getConstraint env with
    | (.error e, t) => (.error e, t)
    | (.ok c, t) =>
      let s : Solver := ⟨c⟩
      (.ok s, { t with cached_solver := some s })

/-- `Theorem.prove`: refuse a second run (`RuntimeError('already proved')`),
then evaluate `self.solver.check()` — the whole derived chain runs inside
the `try` — catching exactly `UnsupportedError` as a SKIP verdict; classify
`unsat`/`unknown`/`sat`, store the model on `sat`, and treat any other
solver answer as unreachable.  The returned value is `ok` when a verdict
was recorded, `error` when an exception propagates. -/
def Theorem.prove (env : Env) (t : Theorem) : Except Err Unit × Theorem :=
  match t.conclusion with
  | some _ => (.error (.runtime "already proved"), t)
  | none =>
    match t.getSolver env with
    | (.error (.unsupported msg), t) =>
        (.ok (), { t with conclusion := some .SKIP, error := some (.unsupported msg) })
    | (.error e, t) => (.error e, t)
    | (.ok s, t) =>
      match env.check s.constraint with
      | .error (.unsupported msg) =>
          (.ok (), { t with conclusion := some .SKIP, error := some (.unsupported msg) })
      | .error e => (.error e, t)
      | .ok .unsat => (.ok (), { t with conclusion := some .OK })
      | .ok .unknown =>
          (.ok (),
           { t with conclusion := some .SKIP
                    error := some (.proveErr "cannot validate theorem") })
      | .ok .sat =>
          (.ok (),
           { t with conclusion := some .FAIL
                    counterex := some (env.model s.constraint) })
      | .ok .other => (.error (.runtime "unreachable"), t)

theorem evalConj_eq_all (v : Nat → Bool) (l : List Expr) :
    Expr.evalConj v l = l.all (Expr.eval v) := by
  induction l with
  | nil => rfl
  | cons e es ih => simp [Expr.evalConj, List.all_cons, ih]

theorem as_expr_eval (v : Nat → Bool) (g : Goal) :
    (g.as_expr).eval v = g.evalAll v := by
  rcases g with ⟨_ | ⟨e, _ | ⟨e2, es⟩⟩⟩
  · rfl
  · simp [Goal.as_expr, Goal.evalAll]
  · simp [Goal.as_expr, Goal.evalAll, Expr.eval, evalConj_eq_all]

theorem assembleConstraint_eval (v : Nat → Bool) (con : Contracts) (ctx : Context) :
    (assembleConstraint con ctx).eval v =
      (con.pre.evalAll v && ctx.given.all (Expr.eval v) &&
        !(ctx.expected.all (Expr.eval v) && con.post.evalAll v)) := by
  unfold assembleConstraint
  simp [Expr.eval, evalConj_eq_all, List.all_append, Goal.add, as_expr_eval,
    Goal.evalAll, Bool.and_assoc]

theorem getArguments_frame (t : Theorem) :
    t.getArguments.2.func = t.func ∧ t.getArguments.2.conclusion = t.conclusion ∧
    t.getArguments.2.error = t.error ∧ t.getArguments.2.counterex = t.counterex := by
  cases h : t.cached_arguments with
  | some args => simp [Theorem.getArguments, h]
  | none =>
    cases h2 : computeArguments t.func with
    | error e => simp [Theorem.getArguments, h, h2]
    | ok args => simp [Theorem.getArguments, h, h2]

theorem getContext_frame (t : Theorem) :
    t.getContext.2.func = t.func ∧ t.getContext.2.conclusion = t.conclusion ∧
    t.getContext.2.error = t.error ∧ t.getContext.2.counterex = t.counterex := by
  cases h : t.cached_context with
  | some ctx => simp [Theorem.getContext, h]
  | none =>
    obtain ⟨h1, h2, h3, h4⟩ := getArguments_frame t
    cases h5 : t.getArguments with
    | mk r t2 =>
      rw [h5] at h1 h2 h3 h4
      cases r with
      | error e =>
        simp only [Theorem.getContext, h, h5]
        exact ⟨h1, h2, h3, h4⟩
      | ok args =>
        simp only [Theorem.getContext, h, h5]
        exact ⟨h1, h2, h3, h4⟩

theorem getContracts_frame (env : Env) (t : Theorem) :
    (t.getContracts env).2.func = t.func ∧
    (t.getContracts env).2.conclusion = t.conclusion ∧
    (t.getContracts env).2.error = t.error ∧
    (t.getContracts env).2.counterex = t.counterex := by
  cases h : t.cached_contracts with
  | some con => simp [Theorem.getContracts, h]
  | none =>
    obtain ⟨h1, h2, h3, h4⟩ := getContext_frame t
    cases h5 : t.getContext with
    | mk r t2 =>
      rw [h5] at h1 h2 h3 h4
      cases r with
      | error e =>
        simp only [Theorem.getContracts, h, h5]
        exact ⟨h1, h2, h3, h4⟩
      | ok ctx =>
        cases h6 : env.evalContracts t2.func ctx with
        | error e =>
          simp only [Theorem.getContracts, h, h5, h6]
          exact ⟨h1, h2, h3, h4⟩
        | ok con =>
          simp only [Theorem.getContracts, h, h5, h6]
          exact ⟨h1, h2, h3, h4⟩

theorem getConstraint_frame (env : Env) (t : Theorem) :
    (t.getConstraint env).2.func = t.func ∧
    (t.getConstraint env).2.conclusion = t.conclusion ∧
    (t.getConstraint env).2.error = t.error ∧
    (t.getConstraint env).2.counterex = t.counterex := by
  cases h : t.cached_constraint with
  | some c => simp [Theorem.getConstraint, h]
  | none =>
    obtain ⟨h1, h2, h3, h4⟩ := getContext_frame t
    cases h5 : t.getContext with
    | mk r t2 =>
      rw [h5] at h1 h2 h3 h4
      cases r with
      | error e =>
        simp only [Theorem.getConstraint, h, h5]
        exact ⟨h1, h2, h3, h4⟩
      | ok ctx =>
        cases h6 : env.evalStmt t2.func ctx with
        | error e =>
          simp only [Theorem.getConstraint, h, h5, h6]
          exact ⟨h1, h2, h3, h4⟩
        | ok ctx2 =>
          obtain ⟨g1, g2, g3, g4⟩ :=
            getContracts_frame env { t2 with cached_context := some ctx2 }
          cases h7 : Theorem.getContracts env { t2 with cached_context := some ctx2 } with
          | mk r2 t3 =>
            rw [h7] at g1 g2 g3 g4
            cases r2 with
            | error e =>
              simp [Theorem.getConstraint, h, h5, h6, h7, h1, h2, h3, h4] at g1 g2 g3 g4 ⊢
              exact ⟨g1.trans h1, g2.trans h2, g3.trans h3, g4.trans h4⟩
            | ok con =>
              simp [Theorem.getConstraint, h, h5, h6, h7, h1, h2, h3, h4] at g1 g2 g3 g4 ⊢
              exact ⟨g1.trans h1, g2.trans h2, g3.trans h3, g4.trans h4⟩

theorem getSolver_frame (env : Env) (t : Theorem) :
    (t.getSolver env).2.func = t.func ∧
    (t.getSolver env).2.conclusion = t.conclusion ∧
    (t.getSolver env).2.error = t.error ∧
    (t.getSolver env).2.counterex = t.counterex := by
  cases h : t.cached_solver with
  | some s => simp [Theorem.getSolver, h]
  | none =>
    obtain ⟨h1, h2, h3, h4⟩ := getConstraint_frame env t
    cases h5 : t.getConstraint env with
    | mk r t2 =>
      rw [h5] at h1 h2 h3 h4
      cases r with
      | error e =>
        simp only [Theorem.getSolver, h, h5]
        exact ⟨h1, h2, h3, h4⟩
      | ok c =>
        simp only [Theorem.getSolver, h, h5]
        exact ⟨h1, h2, h3, h4⟩

/-- The context seeded by the `context` property from the argument map. -/
def seedContext (args : List (String × SymValue)) : Context :=
  args.foldl (fun c p => c.scopeSet p.1 p.2) Context.make_empty

/-- Full characterization of the derived chain on a freshly constructed
Theorem: which value each scrutinee step produces and exactly what ends up
memoized, for each way the computation can stop. -/
theorem getSolver_fresh (env : Env) (f : FuncDef) :
    (Theorem.fresh f).getSolver env =
      match computeArguments f with
      | .error e => (.error e, Theorem.fresh f)
      | .ok args =>
        match env.evalStmt f (seedContext args) with
        | .error e =>
          (.error e,
           { Theorem.fresh f with
              cached_arguments := some args
              cached_context := some (seedContext args) })
        | .ok ctx2 =>
          match env.evalContracts f ctx2 with
          | .error e =>
            (.error e,
             { Theorem.fresh f with
                cached_arguments := some args
                cached_context := some ctx2 })
          | .ok con =>
            (.ok ⟨assembleConstraint con ctx2⟩,
             { Theorem.fresh f with
                cached_arguments := some args
                cached_context := some ctx2
                cached_contracts := some con
                cached_constraint := some (assembleConstraint con ctx2)
                cached_solver := some ⟨assembleConstraint con ctx2⟩ }) := by
  cases hargs : computeArguments f with
  | error e =>
    simp [Theorem.fresh, Theorem.getSolver, Theorem.getConstraint, Theorem.getContext,
      Theorem.getArguments, hargs]
  | ok args =>
    cases hstmt : env.evalStmt f (seedContext args) with
    | error e =>
      simp only [seedContext] at hstmt
      simp [Theorem.fresh, Theorem.getSolver, Theorem.getConstraint, Theorem.getContext,
        Theorem.getArguments, seedContext, hargs, hstmt]
    | ok ctx2 =>
      simp only [seedContext] at hstmt
      cases hcon : env.evalContracts f ctx2 with
      | error e =>
        simp [Theorem.fresh, Theorem.getSolver, Theorem.getConstraint, Theorem.getContext,
          Theorem.getArguments, Theorem.getContracts, seedContext, hargs, hstmt, hcon]
      | ok con =>
        simp [Theorem.fresh, Theorem.getSolver, Theorem.getConstraint, Theorem.getContext,
          Theorem.getArguments, Theorem.getContracts, seedContext, hargs, hstmt, hcon]

/-- A successful `prove` records a conclusion. -/
theorem prove_ok_conclusion_isSome (env : Env) (t : Theorem)
    (h : (t.prove env).1 = .ok ()) : ((t.prove env).2.conclusion).isSome := by
  cases hc : t.conclusion with
  | some c => simp [Theorem.prove, hc] at h
  | none =>
    cases hs : t.getSolver env with
    | mk r t2 =>
      cases r with
      | error e =>
        cases e with
        | unsupported msg => simp [Theorem.prove, hc, hs]
        | proveErr msg => simp [Theorem.prove, hc, hs] at h
        | runtime msg => simp [Theorem.prove, hc, hs] at h
        | other msg => simp [Theorem.prove, hc, hs] at h
      | ok s =>
        cases hchk : env.check s.constraint with
        | error e =>
          cases e with
          | unsupported msg => simp [Theorem.prove, hc, hs, hchk]
          | proveErr msg => simp [Theorem.prove, hc, hs, hchk] at h
          | runtime msg => simp [Theorem.prove, hc, hs, hchk] at h
          | other msg => simp [Theorem.prove, hc, hs, hchk] at h
        | ok r2 =>
          cases r2 with
          | unsat => simp [Theorem.prove, hc, hs, hchk]
          | unknown => simp [Theorem.prove, hc, hs, hchk]
          | sat => simp [Theorem.prove, hc, hs, hchk]
          | other => simp [Theorem.prove, hc, hs, hchk] at h

/-- `prove` on a Theorem that already has a conclusion fails the reuse
check. -/
theorem prove_already_proved (env : Env) (t : Theorem) (c : Conclusion)
    (h : t.conclusion = some c) :
    t.prove env = (.error (.runtime "already proved"), t) := by
  simp [Theorem.prove, h]

/-- `prove` never changes the bound function description. -/
theorem prove_func (env : Env) (t : Theorem) : (t.prove env).2.func = t.func := by
  have hfr := (getSolver_frame env t).1
  cases hc : t.conclusion with
  | some c => simp [Theorem.prove, hc]
  | none =>
    cases hs : t.getSolver env with
    | mk r t2 =>
      rw [hs] at hfr
      cases r with
      | error e =>
        cases e with
        | unsupported msg => simp [Theorem.prove, hc, hs]; exact hfr
        | proveErr msg => simp [Theorem.prove, hc, hs]; exact hfr
        | runtime msg => simp [Theorem.prove, hc, hs]; exact hfr
        | other msg => simp [Theorem.prove, hc, hs]; exact hfr
      | ok s =>
        cases hchk : env.check s.constraint with
        | error e =>
          cases e with
          | unsupported msg => simp [Theorem.prove, hc, hs, hchk]; exact hfr
          | proveErr msg => simp [Theorem.prove, hc, hs, hchk]; exact hfr
          | runtime msg => simp [Theorem.prove, hc, hs, hchk]; exact hfr
          | other msg => simp [Theorem.prove, hc, hs, hchk]; exact hfr
        | ok r2 =>
          cases r2 with
          | unsat => simp [Theorem.prove, hc, hs, hchk]; exact hfr
          | unknown => simp [Theorem.prove, hc, hs, hchk]; exact hfr
          | sat => simp [Theorem.prove, hc, hs, hchk]; exact hfr
          | other => simp [Theorem.prove, hc, hs, hchk]; exact hfr

/-- If some declared parameter has no annotation, or its annotation has no
sort, the arguments loop stops with `UnsupportedError`, whatever was
accumulated so far. -/
theorem computeArgumentsGo_bad :
    ∀ (args : List (String × Option AnnNode)) (acc : List (String × SymValue))
      (name : String) (a : Option AnnNode),
      (name, a) ∈ args →
      (a = none ∨ ∃ ann, a = some ann ∧ ann2sort ann = none) →
      ∃ msg, computeArgumentsGo args acc = .error (.unsupported msg) := by
  intro args
  induction args with
  | nil => intro acc name a hmem hbad; cases hmem
  | cons hd tl ih =>
    intro acc name a hmem hbad
    obtain ⟨n0, a0⟩ := hd
    cases ha0 : a0 with
    | none => exact ⟨"missed annotation for " ++ n0, rfl⟩
    | some ann0 =>
      cases hs : ann2sort ann0 with
      | none =>
        exact ⟨"unsupported annotation type", by simp [computeArgumentsGo, hs]⟩
      | some sort0 =>
        rcases List.mem_cons.mp hmem with heq | hmem2
        · exfalso
          rw [ha0] at heq
          rw [Prod.mk.injEq] at heq
          obtain ⟨-, hae0⟩ := heq
          rcases hbad with hb | ⟨ann, hae, hs2⟩
          · rw [hb] at hae0; cases hae0
          · rw [hae] at hae0
            injection hae0 with hae0
            rw [hae0] at hs2
            rw [hs2] at hs
            cases hs
        · obtain ⟨msg, hmsg⟩ :=
            ih (acc ++ [(n0, wrap (z3Const n0 sort0))]) name a hmem2 hbad
          exact ⟨msg, by simp [computeArgumentsGo, hs, hmsg]⟩

/-- C1: with the derived constraint successfully built, `prove` classifies
the solver's answer as the three-valued verdict: `unsat` gives `Proved`
(`OK`); `unknown` gives `Skipped` with the inconclusive `ProveError`
recorded — never a proof; `sat` gives `Disproved` (`FAIL`) with the
solver's model — the concrete values of the arguments — recorded as the
counterexample. -/
theorem prove_classifies_solver_answer (env : Env) (t : Theorem) (s : Solver)
    (hc : t.conclusion = none) (hs : (t.getSolver env).1 = .ok s) :
    (env.check s.constraint = .ok .unsat →
      t.prove env = (.ok (), { (t.getSolver env).2 with conclusion := some .OK })) ∧
    (env.check s.constraint = .ok .unknown →
      t.prove env = (.ok (),
        { (t.getSolver env).2 with
            conclusion := some .SKIP
            error := some (.proveErr "cannot validate theorem") })) ∧
    (env.check s.constraint = .ok .sat →
      t.prove env = (.ok (),
        { (t.getSolver env).2 with
            conclusion := some .FAIL
            counterex := some (env.model s.constraint) })) := by
  cases hp : t.getSolver env with
  | mk r t2 =>
    rw [hp] at hs
    simp only at hs
    subst hs
    refine ⟨?_, ?_, ?_⟩ <;> intro hchk <;> simp [Theorem.prove, hc, hp, hchk]

/-- C2: the formula handed to the solver is exactly
`precondition ∧ (all given) ∧ ¬((all expected) ∧ postcondition)`: under
every valuation it evaluates as the precondition goal, conjoined with every
formula of the context's given set, conjoined with the negation of (every
formula of the expected set conjoined with the postcondition goal). -/
theorem constraint_is_spec_implication (env : Env) (f : FuncDef) (s : Solver)
    (h : ((Theorem.fresh f).getSolver env).1 = .ok s) :
    ∃ ctx con,
      ((Theorem.fresh f).getSolver env).2.cached_context = some ctx ∧
      ((Theorem.fresh f).getSolver env).2.cached_contracts = some con ∧
      ∀ v, s.constraint.eval v =
        (con.pre.evalAll v && ctx.given.all (Expr.eval v) &&
          !(ctx.expected.all (Expr.eval v) && con.post.evalAll v)) := by
  cases hargs : computeArguments f with
  | error e =>
    simp only [getSolver_fresh, hargs] at h
    exact absurd h (by simp)
  | ok args =>
    cases hstmt : env.evalStmt f (seedContext args) with
    | error e =>
      simp only [getSolver_fresh, hargs, hstmt] at h
      exact absurd h (by simp)
    | ok ctx2 =>
      cases hcon : env.evalContracts f ctx2 with
      | error e =>
        simp only [getSolver_fresh, hargs, hstmt, hcon] at h
        exact absurd h (by simp)
      | ok con =>
        simp only [getSolver_fresh, hargs, hstmt, hcon] at h ⊢
        simp only [Except.ok.injEq] at h
        subst h
        refine ⟨ctx2, con, rfl, rfl, ?_⟩
        intro v
        exact assembleConstraint_eval v con ctx2

/-- C3: an `UnsupportedError` raised anywhere inside the `try` — while
building arguments, context, contracts, constraint, the solver, or during
the solver call — makes `prove` record the Skipped verdict with that very
condition as the error; any other exception propagates out of `prove`
unconverted; and in particular a declared parameter without an annotation,
or with an annotation mapping to no sort, always yields Skipped with an
unsupported cause, whatever the external evaluators do. -/
theorem prove_unsupported_caught_others_propagate :
    (∀ (env : Env) (t : Theorem) (msg : String),
      t.conclusion = none →
      (t.getSolver env).1 = .error (.unsupported msg) →
      t.prove env = (.ok (),
        { (t.getSolver env).2 with
            conclusion := some .SKIP
            error := some (.unsupported msg) })) ∧
    (∀ (env : Env) (t : Theorem) (s : Solver) (msg : String),
      t.conclusion = none →
      (t.getSolver env).1 = .ok s →
      env.check s.constraint = .error (.unsupported msg) →
      t.prove env = (.ok (),
        { (t.getSolver env).2 with
            conclusion := some .SKIP
            error := some (.unsupported msg) })) ∧
    (∀ (env : Env) (t : Theorem) (e : Err),
      t.conclusion = none →
      (t.getSolver env).1 = .error e → e.isUnsupported = false →
      t.prove env = (.error e, (t.getSolver env).2)) ∧
    (∀ (env : Env) (t : Theorem) (s : Solver) (e : Err),
      t.conclusion = none →
      (t.getSolver env).1 = .ok s → env.check s.constraint = .error e →
      e.isUnsupported = false →
      t.prove env = (.error e, (t.getSolver env).2)) ∧
    (∀ (env : Env) (f : FuncDef) (name : String) (a : Option AnnNode),
      (name, a) ∈ f.args →
      (a = none ∨ ∃ ann, a = some ann ∧ ann2sort ann = none) →
      ∃ msg, ((Theorem.fresh f).prove env).1 = .ok () ∧
        ((Theorem.fresh f).prove env).2.conclusion = some .SKIP ∧
        ((Theorem.fresh f).prove env).2.error = some (.unsupported msg)) := by
  refine ⟨?_, ?_, ?_, ?_, ?_⟩
  · intro env t msg hc hs
    cases hp : t.getSolver env with
    | mk r t2 =>
      rw [hp] at hs
      simp only at hs
      subst hs
      simp [Theorem.prove, hc, hp]
  · intro env t s msg hc hs hchk
    cases hp : t.getSolver env with
    | mk r t2 =>
      rw [hp] at hs
      simp only at hs
      subst hs
      simp [Theorem.prove, hc, hp, hchk]
  · intro env t e hc hs he
    cases hp : t.getSolver env with
    | mk r t2 =>
      rw [hp] at hs
      simp only at hs
      subst hs
      cases e with
      | unsupported msg => simp [Err.isUnsupported] at he
      | proveErr msg => simp [Theorem.prove, hc, hp]
      | runtime msg => simp [Theorem.prove, hc, hp]
      | other msg => simp [Theorem.prove, hc, hp]
  · intro env t s e hc hs hchk he
    cases hp : t.getSolver env with
    | mk r t2 =>
      rw [hp] at hs
      simp only at hs
      subst hs
      cases e with
      | unsupported msg => simp [Err.isUnsupported] at he
      | proveErr msg => simp [Theorem.prove, hc, hp, hchk]
      | runtime msg => simp [Theorem.prove, hc, hp, hchk]
      | other msg => simp [Theorem.prove, hc, hp, hchk]
  · intro env f name a hmem hbad
    obtain ⟨msg, hmsg⟩ := computeArgumentsGo_bad f.args [] name a hmem hbad
    have hargs : computeArguments f = .error (.unsupported msg) := hmsg
    have hgs := getSolver_fresh env f
    rw [hargs] at hgs
    simp only at hgs
    have hc : (Theorem.fresh f).conclusion = none := rfl
    refine ⟨msg, ?_, ?_, ?_⟩ <;>
      simp [Theorem.prove, hc, hgs]

/-- C8: after `prove` completes with any conclusion, a second `prove`
without `reset` fails with `RuntimeError('already proved')`; after `reset`
the verdict is computed afresh on the same inputs and equals the first
verdict. -/
theorem prove_twice_and_reset (env : Env) (f : FuncDef)
    (h : ((Theorem.fresh f).prove env).1 = .ok ()) :
    ((((Theorem.fresh f).prove env).2).prove env).1
        = .error (.runtime "already proved") ∧
    (((((Theorem.fresh f).prove env).2).reset).prove env).1 = .ok () ∧
    (((((Theorem.fresh f).prove env).2).reset).prove env).2.conclusion
        = ((Theorem.fresh f).prove env).2.conclusion := by
  have hres : ((((Theorem.fresh f).prove env).2)).reset = Theorem.fresh f := by
    show ({ func := (((Theorem.fresh f).prove env).2).func } : Theorem)
        = { func := f }
    rw [prove_func env (Theorem.fresh f)]
    rfl
  have hconc := prove_ok_conclusion_isSome env (Theorem.fresh f) h
  obtain ⟨c, hcval⟩ := Option.isSome_iff_exists.mp hconc
  refine ⟨?_, ?_, ?_⟩
  · rw [prove_already_proved env (((Theorem.fresh f).prove env).2) c hcval]
  · rw [hres]
    exact h
  · rw [hres]

/-- C9: `reset` clears every memoized derived value (arguments, context,
contracts, constraint, solver) and every verdict attribute (conclusion,
error, counterexample) back to the unset initial state, keeps the bound
function description, and the result equals a freshly constructed Theorem
on that same description. -/
theorem reset_clears_to_fresh (t : Theorem) :
    t.reset.func = t.func ∧ t.reset.conclusion = none ∧ t.reset.error = none ∧
    t.reset.counterex = none ∧ t.reset.cached_arguments = none ∧
    t.reset.cached_context = none ∧ t.reset.cached_contracts = none ∧
    t.reset.cached_constraint = none ∧ t.reset.cached_solver = none ∧
    t.reset = Theorem.fresh t.func :=
  ⟨rfl, rfl, rfl, rfl, rfl, rfl, rfl, rfl, rfl, rfl⟩

/-- C10: when `prove` exits by propagating an exception, that exception is
never the caught unsupported-construct condition, and the verdict
attributes are untouched: the conclusion is still unset (so a further
`prove` does not trip the invalid-reuse check), and the error and
counterexample attributes keep their previous values. -/
theorem prove_propagates_leaves_unproved (env : Env) (t : Theorem) (e : Err)
    (hc : t.conclusion = none) (h : (t.prove env).1 = .error e) :
    e.isUnsupported = false ∧
    (t.prove env).2.conclusion = none ∧
    (t.prove env).2.error = t.error ∧
    (t.prove env).2.counterex = t.counterex := by
  obtain ⟨h1, h2, h3, h4⟩ := getSolver_frame env t
  cases hp : t.getSolver env with
  | mk r t2 =>
    rw [hp] at h1 h2 h3 h4
    simp only at h1 h2 h3 h4
    cases r with
    | error e2 =>
      cases e2 with
      | unsupported msg => simp [Theorem.prove, hc, hp] at h
      | proveErr msg =>
        simp only [Theorem.prove, hc, hp] at h
        simp only [Except.error.injEq] at h
        subst h
        simp [Theorem.prove, hc, hp, Err.isUnsupported, h2, h3, h4]
      | runtime msg =>
        simp only [Theorem.prove, hc, hp] at h
        simp only [Except.error.injEq] at h
        subst h
        simp [Theorem.prove, hc, hp, Err.isUnsupported, h2, h3, h4]
      | other msg =>
        simp only [Theorem.prove, hc, hp] at h
        simp only [Except.error.injEq] at h
        subst h
        simp [Theorem.prove, hc, hp, Err.isUnsupported, h2, h3, h4]
    | ok s =>
      cases hchk : env.check s.constraint with
      | error e2 =>
        cases e2 with
        | unsupported msg => simp [Theorem.prove, hc, hp, hchk] at h
        | proveErr msg =>
          simp only [Theorem.prove, hc, hp, hchk] at h
          simp only [Except.error.injEq] at h
          subst h
          simp [Theorem.prove, hc, hp, hchk, Err.isUnsupported, h2, h3, h4]
        | runtime msg =>
          simp only [Theorem.prove, hc, hp, hchk] at h
          simp only [Except.error.injEq] at h
          subst h
          simp [Theorem.prove, hc, hp, hchk, Err.isUnsupported, h2, h3, h4]
        | other msg =>
          simp only [Theorem.prove, hc, hp, hchk] at h
          simp only [Except.error.injEq] at h
          subst h
          simp [Theorem.prove, hc, hp, hchk, Err.isUnsupported, h2, h3, h4]
      | ok r2 =>
        cases r2 with
        | unsat => simp [Theorem.prove, hc, hp, hchk] at h
        | unknown => simp [Theorem.prove, hc, hp, hchk] at h
        | sat => simp [Theorem.prove, hc, hp, hchk] at h
        | other =>
          simp only [Theorem.prove, hc, hp, hchk] at h
          simp only [Except.error.injEq] at h
          subst h
          simp [Theorem.prove, hc, hp, hchk, Err.isUnsupported, h2, h3, h4]

/-!
Concrete instances used by the witnesses: a one-parameter annotated
function, one with a missing annotation, and sample environments.
-/

/-- `def f(x: int): ...` -/
def funcOne : FuncDef := ⟨"f", [("x", some (.name "int"))]⟩

/-- `def g(x): ...` — the parameter has no annotation. -/
def funcBad : FuncDef := ⟨"g", [("x", none)]⟩

/-- A sample environment: the statement evaluator adds one given and one
expected formula, the contract evaluator yields one-formula pre and post
goals, and the solver answers `unsat`. -/
def envUnsat : Env where
  evalContracts := fun _ _ => .ok ⟨⟨[.var 2]⟩, ⟨[.var 3]⟩⟩
  evalStmt := fun _ ctx => .ok { ctx with given := [.var 0], expected := [.var 1] }
  check := fun _ => .ok .unsat
  model := fun _ => []

/-- A sample environment whose solver call raises a non-`UnsupportedError`
exception. -/
def envRaise : Env where
  evalContracts := fun _ _ => .ok ⟨⟨[.var 2]⟩, ⟨[.var 3]⟩⟩
  evalStmt := fun _ ctx => .ok { ctx with given := [.var 0], expected := [.var 1] }
  check := fun _ => .error (.other "z3 raised")
  model := fun _ => []

/-- The solver built for `funcOne` under the sample environments. -/
def solverOne : Solver :=
  ⟨.and [.var 2, .var 0, .not (.and [.var 1, .var 3])]⟩

/-- Witness for C1: on `funcOne` under `envUnsat` the hypotheses hold and
the `unsat` answer is classified as `Proved`. -/
theorem prove_classifies_solver_answer_witness :
    (Theorem.fresh funcOne).conclusion = none ∧
    ((Theorem.fresh funcOne).getSolver envUnsat).1 = .ok solverOne ∧
    (Theorem.fresh funcOne).prove envUnsat
      = (.ok (), { ((Theorem.fresh funcOne).getSolver envUnsat).2 with
                    conclusion := some .OK }) :=
  ⟨rfl, rfl,
    (prove_classifies_solver_answer envUnsat (Theorem.fresh funcOne) solverOne
        rfl rfl).1 rfl⟩

/-- Witness for C2: on `funcOne` under `envUnsat` the solver was built, and
the asserted formula agrees everywhere with the spec's implication shape. -/
theorem constraint_is_spec_implication_witness :
    ((Theorem.fresh funcOne).getSolver envUnsat).1 = .ok solverOne ∧
    (∃ ctx con,
      ((Theorem.fresh funcOne).getSolver envUnsat).2.cached_context = some ctx ∧
      ((Theorem.fresh funcOne).getSolver envUnsat).2.cached_contracts = some con ∧
      ∀ v, solverOne.constraint.eval v =
        (con.pre.evalAll v && ctx.given.all (Expr.eval v) &&
          !(ctx.expected.all (Expr.eval v) && con.post.evalAll v))) :=
  ⟨rfl, constraint_is_spec_implication envUnsat funcOne solverOne rfl⟩

/-- Witness for C3: `funcBad` has an unannotated parameter, so `prove`
records the Skipped verdict with an unsupported cause. -/
theorem prove_unsupported_caught_others_propagate_witness :
    ∃ msg, ((Theorem.fresh funcBad).prove envUnsat).1 = .ok () ∧
      ((Theorem.fresh funcBad).prove envUnsat).2.conclusion = some .SKIP ∧
      ((Theorem.fresh funcBad).prove envUnsat).2.error = some (.unsupported msg) :=
  prove_unsupported_caught_others_propagate.2.2.2.2 envUnsat funcBad "x" none
    (by simp [funcBad]) (Or.inl rfl)

/-- Witness for C8: on `funcOne` under `envUnsat` the first `prove`
succeeds; the second fails the reuse check, and after `reset` the verdict
is recomputed and coincides. -/
theorem prove_twice_and_reset_witness :
    ((Theorem.fresh funcOne).prove envUnsat).1 = .ok () ∧
    (((((Theorem.fresh funcOne).prove envUnsat).2)).prove envUnsat).1
        = .error (.runtime "already proved") ∧
    (((((Theorem.fresh funcOne).prove envUnsat).2).reset).prove envUnsat).1 = .ok () ∧
    (((((Theorem.fresh funcOne).prove envUnsat).2).reset).prove envUnsat).2.conclusion
        = ((Theorem.fresh funcOne).prove envUnsat).2.conclusion :=
  ⟨rfl, prove_twice_and_reset envUnsat funcOne rfl⟩

/-- Witness for C10: under `envRaise` the solver call raises a plain
exception; `prove` propagates it and the verdict attributes stay unset. -/
theorem prove_propagates_leaves_unproved_witness :
    (Theorem.fresh funcOne).conclusion = none ∧
    ((Theorem.fresh funcOne).prove envRaise).1 = .error (.other "z3 raised") ∧
    ((Err.other "z3 raised").isUnsupported = false ∧
      ((Theorem.fresh funcOne).prove envRaise).2.conclusion = none ∧
      ((Theorem.fresh funcOne).prove envRaise).2.error = (Theorem.fresh funcOne).error ∧
      ((Theorem.fresh funcOne).prove envRaise).2.counterex
        = (Theorem.fresh funcOne).counterex) :=
  ⟨rfl, rfl,
    prove_propagates_leaves_unproved envRaise (Theorem.fresh funcOne)
      (.other "z3 raised") rfl rfl⟩

end DealSolver
